import Mathlib

/-!
Verification of the leetFeedback extension core against its source.

The definitions below are a shallow embedding of the JavaScript source:
`src/utils/problem-timer.js` (ProblemTimer), `src/content-scripts/takeuforward.js`
(TakeUforwardExtractor and its message listener / submission pipeline), and the
GeminiAPI utility.  Time is modelled as `Nat` milliseconds, JS numbers that may
be negative as `Int`, JS `null`/`undefined` as `Option`, and JS truthiness is
made explicit via the `truthy*`/`jsOr*` helpers (`0`, `""`, `null`, `undefined`
are falsy).  External effects (DOM reads, `chrome.storage`, network calls) are
passed in as explicit state or oracle parameters.
-/

/- ### JS truthiness helpers -/

/-- JS truthiness of a possibly-null number (`null`/`undefined`/`0` are falsy). -/
def truthyOptNat : Option Nat → Bool
  | none => false
  | some n => n != 0

/-- JS truthiness of a possibly-null string (`null`/`undefined`/`""` are falsy). -/
def truthyOptStr : Option String → Bool
  | none => false
  | some s => s != ""

/-- JS `a || b` on strings (`""` is falsy). -/
def jsOrStr (a b : String) : String := if a = "" then b else a

/-- JS `a || b` where `a` may be `null`/`undefined`/a number (`0` is falsy). -/
def jsOrNum (a : Option Int) (b : Int) : Int :=
  match a with
  | none => b
  | some x => if x = 0 then b else x

/- ### String primitives

`trim`, `toLowerCase`, `includes`, `split`, `startsWith` and friends,
implemented by structural recursion on the character list so that concrete
evaluations reduce inside the kernel. -/

def isWhitespaceChar (c : Char) : Bool :=
  c = ' ' || c = '\t' || c = '\n' || c = '\r'

/-- `s.trim()`. -/
def strTrim (s : String) : String :=
  ⟨((s.data.dropWhile isWhitespaceChar).reverse.dropWhile isWhitespaceChar).reverse⟩

def lowerChar (c : Char) : Char :=
  if 'A' ≤ c ∧ c ≤ 'Z' then Char.ofNat (c.toNat + 32) else c

/-- `s.toLowerCase()` (ASCII). -/
def strToLower (s : String) : String := ⟨s.data.map lowerChar⟩

def charsStartWith : List Char → List Char → Bool
  | _, [] => true
  | [], _ :: _ => false
  | a :: as, b :: bs => a = b && charsStartWith as bs

def charsContain : List Char → List Char → Bool
  | [], needle => needle.isEmpty
  | h :: t, needle => charsStartWith (h :: t) needle || charsContain t needle

/-- `h.includes(n)`. -/
def strContains (h n : String) : Bool := charsContain h.data n.data

/-- `s.startsWith(p)`. -/
def strStartsWith (s p : String) : Bool := charsStartWith s.data p.data

/-- `s.slice(n)` / dropping the first `n` characters. -/
def strDrop (s : String) (n : Nat) : String := ⟨s.data.drop n⟩

def splitOnCharAux : List Char → Char → List Char → List (List Char)
  | [], _, acc => [acc.reverse]
  | c :: cs, sep, acc =>
    if c = sep then acc.reverse :: splitOnCharAux cs sep []
    else splitOnCharAux cs sep (c :: acc)

/-- `s.split(sep)` for a one-character separator. -/
def strSplitOnChar (s : String) (sep : Char) : List String :=
  (splitOnCharAux s.data sep []).map (fun l => String.mk l)

/-- Re-join lines with the given separator. -/
def strJoinWith (sep : String) : List String → String
  | [] => ""
  | [x] => x
  | x :: y :: rest => x ++ sep ++ strJoinWith sep (y :: rest)

/- ### ProblemTimer state (src/utils/problem-timer.js)

Fields `startTime`, `pausedTime`, `isTabHidden`, `tabHiddenAt` of the
`ProblemTimer` class.  `startTime`/`tabHiddenAt` are `null` or a timestamp;
`pausedTime` is a JS number. -/

structure TimerState where
  startTime : Option Nat
  pausedTime : Int
  isTabHidden : Bool
  tabHiddenAt : Option Nat
deriving Repr, DecidableEq

/-- A `visibilitychange` event: the tab becomes hidden or visible at time `t`. -/
inductive VisEvent where
  | hideTab (t : Nat)
  | showTab (t : Nat)
deriving Repr, DecidableEq

def VisEvent.time : VisEvent → Nat
  | .hideTab t => t
  | .showTab t => t

/-- The `visibilitychange` handler installed by `setupVisibilityTracking`
(problem-timer.js lines 143-165).  On hide: record `tabHiddenAt = now`.
On show: if `tabHiddenAt` and `startTime` are truthy, add the hidden duration
to `pausedTime`; then clear `tabHiddenAt`. -/
def visStep (s : TimerState) (e : VisEvent) : TimerState :=
  match e with
  | .hideTab t => { s with isTabHidden := true, tabHiddenAt := some t }
  | .showTab t =>
    let s1 : TimerState := { s with isTabHidden := false }
    match s1.tabHiddenAt with
    | some th =>
      if truthyOptNat (some th) ∧ truthyOptNat s1.startTime then
        { s1 with pausedTime := s1.pausedTime + ((t : Int) - (th : Int)),
                  tabHiddenAt := none }
      else { s1 with tabHiddenAt := none }
    | none => { s1 with tabHiddenAt := none }

/-- Folding a sequence of visibility events over the timer state. -/
def visRun (s : TimerState) (es : List VisEvent) : TimerState :=
  es.foldl visStep s

/-- Timer state right after `startTimer` begins a fresh problem at time `t0`
(`startTime = now, pausedTime = 0`); `isTabHidden` is `document.hidden` at
construction and `tabHiddenAt` is `null`. -/
def startState (t0 : Nat) (docHidden : Bool) : TimerState :=
  { startTime := some t0, pausedTime := 0, isTabHidden := docHidden, tabHiddenAt := none }

/-- Event times are nondecreasing, start no earlier than `lo`, and end no
later than `hi` (Boolean so that witnesses can evaluate it). -/
def monoChk : Nat → List VisEvent → Nat → Bool
  | lo, [], hi => lo ≤ hi
  | lo, e :: es, hi => lo ≤ e.time && monoChk e.time es hi

/-- The raw active-time formula: wall-clock time since `startTime`, minus
`pausedTime`, minus the current hidden interval when the tab is hidden.  This
is the value `getElapsedActiveTime` computes before its negativity check. -/
def rawElapsed (s : TimerState) (now : Nat) : Int :=
  ((now : Int) - (s.startTime.getD 0 : Nat) - s.pausedTime) -
    (if s.isTabHidden ∧ truthyOptNat s.tabHiddenAt then
       (now : Int) - (s.tabHiddenAt.getD 0 : Nat) else 0)

/-- The local `elapsed` variable of `getElapsedActiveTime` (lines 171-178):
`now - startTime - pausedTime`, minus the current hidden duration when the
tab is hidden and `tabHiddenAt` is truthy. -/
def elapsedOf (s : TimerState) (now : Nat) : Int :=
  if s.isTabHidden ∧ truthyOptNat s.tabHiddenAt then
    ((now : Int) - (s.startTime.getD 0 : Nat) - s.pausedTime) -
      ((now : Int) - (s.tabHiddenAt.getD 0 : Nat))
  else ((now : Int) - (s.startTime.getD 0 : Nat) - s.pausedTime)

/-- `getElapsedActiveTime` (problem-timer.js lines 168-192).  Returns the
(possibly self-corrected) state together with the returned value.  If
`startTime` is falsy it returns 0; if the computed elapsed value is negative
it resets `startTime`/`pausedTime`/`tabHiddenAt` and returns 0.  The function
is total: it never throws. -/
def getElapsedActiveTime (s : TimerState) (now : Nat) : TimerState × Int :=
  if truthyOptNat s.startTime then
    if elapsedOf s now < 0 then
      ({ startTime := some now, pausedTime := 0,
         isTabHidden := s.isTabHidden, tabHiddenAt := none }, 0)
    else (s, elapsedOf s now)
  else (s, 0)

/- ### Timer persistence (chrome.storage.local)

The stored problem record is an open-world JS object: a map from field name to
value.  `saveToStorage` (lines 271-297) reads the record for the problem key,
overwrites only `problemStartTime` and `pausedTime`, writes it back, and also
writes the overlay position under its own key. -/

inductive JSVal where
  | undef
  | null
  | num (n : Int)
deriving Repr, DecidableEq

/-- One stored record: field name to value (absent fields read as `undefined`). -/
def JSRecord : Type := String → JSVal

/-- The slice of `chrome.storage.local` that the timer touches. -/
structure LocalStore where
  recs : String → Option JSRecord
  overlayPos : Option (Int × Int)

/-- `result[storageKey] || {}`: the stored record for a key, defaulting to the
empty object (all fields `undefined`). -/
def storedRecOrEmpty (st : LocalStore) (key : String) : JSRecord :=
  fun f => match st.recs key with
    | none => JSVal.undef
    | some r => r f

/-- The read-modify-write merge of `saveToStorage`: only `problemStartTime`
and `pausedTime` are assigned; every other field keeps the stored value. -/
def mergedTimerRec (ts : TimerState) (old : JSRecord) : JSRecord :=
  fun f =>
    if f = "problemStartTime" then
      (match ts.startTime with
       | none => JSVal.null
       | some t => JSVal.num (t : Int))
    else if f = "pausedTime" then JSVal.num ts.pausedTime
    else old f

/-- `saveToStorage` (problem-timer.js lines 271-297): no-op when `problemUrl`
is falsy; otherwise read-modify-write of the `problem_data_<url>` record,
updating only the two timer fields, then write the overlay position. -/
def saveToStorage (ts : TimerState) (problemUrl : Option String)
    (posX posY : Int) (st : LocalStore) : LocalStore :=
  if truthyOptStr problemUrl then
    { recs := fun k =>
        if k = "problem_data_" ++ problemUrl.getD "" then
          some (mergedTimerRec ts (storedRecOrEmpty st ("problem_data_" ++ problemUrl.getD "")))
        else st.recs k,
      overlayPos := some (posX, posY) }
  else st

/-- `reset` (problem-timer.js lines 134-140): in-memory reset only; the method
body contains no storage operation. -/
def timerReset (t : Nat) (docHidden : Bool) : TimerState :=
  { startTime := some t, pausedTime := 0, isTabHidden := docHidden, tabHiddenAt := none }

/-- Executing the `reset()` method as an event against the store: the state is
reset but the store is untouched (the source method performs no write). -/
def timerResetEvent (t : Nat) (docHidden : Bool) (st : LocalStore) :
    TimerState × LocalStore :=
  (timerReset t docHidden, st)

/-- `resetTimer` (problem-timer.js lines 195-208): same in-memory reset, then
`saveToStorage` persists the new state immediately. -/
def resetTimer (t : Nat) (docHidden : Bool) (problemUrl : Option String)
    (posX posY : Int) (st : LocalStore) : TimerState × LocalStore :=
  let ts : TimerState :=
    { startTime := some t, pausedTime := 0, isTabHidden := docHidden, tabHiddenAt := none }
  (ts, saveToStorage ts problemUrl posX posY st)

/- ### Timer invariant and reachability lemmas -/

/-- Invariant of timer states reachable by visibility events, bounded by the
latest event time `t`: the start time is positive, accumulated `pausedTime`
is nonnegative, and start time plus total paused time stays below the pending
hide timestamp (resp. below `t`). -/
def TimerInv (s : TimerState) (t : Nat) : Prop :=
  ∃ t0 : Nat, s.startTime = some t0 ∧ 0 < t0 ∧ 0 ≤ s.pausedTime ∧
    (match s.tabHiddenAt with
     | some th => s.isTabHidden = true ∧ (t0 : Int) + s.pausedTime ≤ (th : Int) ∧ th ≤ t
     | none => (t0 : Int) + s.pausedTime ≤ (t : Int))

theorem timerInv_mono {s : TimerState} {t t' : Nat} (h : TimerInv s t) (htt : t ≤ t') :
    TimerInv s t' := by
  obtain ⟨t0, hs, h0, hp, hrest⟩ := h
  refine ⟨t0, hs, h0, hp, ?_⟩
  cases hta : s.tabHiddenAt with
  | none =>
    rw [hta] at hrest
    simp only at hrest ⊢
    have : (t : Int) ≤ (t' : Int) := by exact_mod_cast htt
    omega
  | some th =>
    rw [hta] at hrest
    simp only at hrest ⊢
    exact ⟨hrest.1, hrest.2.1, le_trans hrest.2.2 htt⟩

theorem timerInv_step {s : TimerState} {e : VisEvent}
    (h : TimerInv s e.time) : TimerInv (visStep s e) e.time := by
  obtain ⟨t0, hs, h0, hp, hrest⟩ := h
  cases e with
  | hideTab t =>
    have hb : t0 + s.pausedTime ≤ (t : Int) := by
      cases hta : s.tabHiddenAt with
      | none => rw [hta] at hrest; exact hrest
      | some th =>
        rw [hta] at hrest
        have : (th : Int) ≤ (t : Int) := by exact_mod_cast hrest.2.2
        have := hrest.2.1
        omega
    exact ⟨t0, hs, h0, hp, rfl, hb, le_refl t⟩
  | showTab t =>
    cases hta : s.tabHiddenAt with
    | none =>
      rw [hta] at hrest
      have hv : visStep s (VisEvent.showTab t) =
          { s with isTabHidden := false, tabHiddenAt := none } := by
        simp [visStep, hta]
      rw [hv]
      exact ⟨t0, hs, h0, hp, hrest⟩
    | some th =>
      rw [hta] at hrest
      obtain ⟨-, hle, hth⟩ := hrest
      have hthpos : th ≠ 0 := by
        intro hth0
        rw [hth0] at hle
        simp only [Nat.cast_zero] at hle
        omega
      have hcond : truthyOptNat (some th) = true ∧ truthyOptNat s.startTime = true := by
        rw [hs]
        constructor
        · simpa [truthyOptNat] using hthpos
        · simpa [truthyOptNat] using Nat.pos_iff_ne_zero.mp h0
      have hv : visStep s (VisEvent.showTab t) =
          { s with isTabHidden := false, tabHiddenAt := none,
                   pausedTime := s.pausedTime + ((t : Int) - (th : Int)) } := by
        simp only [visStep, hta]
        rw [if_pos ⟨hcond.1, hcond.2⟩]
      rw [hv]
      have htle : (th : Int) ≤ (t : Int) := by exact_mod_cast hth
      refine ⟨t0, hs, h0, ?_, ?_⟩
      · show (0 : Int) ≤ s.pausedTime + ((t : Int) - (th : Int))
        omega
      · show (t0 : Int) + (s.pausedTime + ((t : Int) - (th : Int))) ≤ (t : Int)
        omega

theorem timerInv_run {s : TimerState} {lo hi : Nat} {es : List VisEvent}
    (h : TimerInv s lo) (hm : monoChk lo es hi = true) :
    TimerInv (visRun s es) hi := by
  induction es generalizing s lo with
  | nil =>
    simp only [monoChk, decide_eq_true_eq] at hm
    exact timerInv_mono h hm
  | cons e es ih =>
    simp only [monoChk, Bool.and_eq_true, decide_eq_true_eq] at hm
    have h1 : TimerInv s e.time := timerInv_mono h hm.1
    have h2 : TimerInv (visStep s e) e.time := timerInv_step h1
    simpa [visRun, List.foldl_cons] using ih h2 hm.2

theorem elapsedOf_eq_raw (s : TimerState) (now : Nat) :
    elapsedOf s now = rawElapsed s now := by
  unfold elapsedOf rawElapsed
  by_cases hc : s.isTabHidden = true ∧ truthyOptNat s.tabHiddenAt = true
  · rw [if_pos hc, if_pos hc]
  · rw [if_neg hc, if_neg hc, sub_zero]

theorem rawElapsed_nonneg {s : TimerState} {now : Nat} (h : TimerInv s now) :
    0 ≤ rawElapsed s now := by
  obtain ⟨t0, hs, h0, hp, hrest⟩ := h
  unfold rawElapsed
  rw [hs]
  cases hta : s.tabHiddenAt with
  | none =>
    rw [hta] at hrest
    have hb : (t0 : Int) + s.pausedTime ≤ (now : Int) := hrest
    have hcond : ¬(s.isTabHidden = true ∧ truthyOptNat (none : Option Nat) = true) := by
      intro hc
      simp [truthyOptNat] at hc
    rw [if_neg hcond]
    simp only [Option.getD_some]
    omega
  | some th =>
    rw [hta] at hrest
    obtain ⟨hhid, hle, hthle⟩ := hrest
    have hthpos : th ≠ 0 := by
      intro hth0
      rw [hth0] at hle
      simp only [Nat.cast_zero] at hle
      omega
    have hcond : s.isTabHidden = true ∧ truthyOptNat (some th) = true := by
      exact ⟨hhid, by simpa [truthyOptNat] using hthpos⟩
    rw [if_pos hcond]
    simp only [Option.getD_some]
    omega

theorem getElapsed_eq_raw {s : TimerState} {now : Nat}
    (hst : truthyOptNat s.startTime = true) (hnn : 0 ≤ rawElapsed s now) :
    getElapsedActiveTime s now = (s, rawElapsed s now) := by
  unfold getElapsedActiveTime
  rw [if_pos hst, elapsedOf_eq_raw, if_neg (not_lt.mpr hnn)]

theorem getElapsed_clamp {s : TimerState} {now : Nat}
    (hst : truthyOptNat s.startTime = true) (hneg : rawElapsed s now < 0) :
    getElapsedActiveTime s now =
      ({ startTime := some now, pausedTime := 0,
         isTabHidden := s.isTabHidden, tabHiddenAt := none }, 0) := by
  unfold getElapsedActiveTime
  rw [if_pos hst, elapsedOf_eq_raw, if_pos hneg]

theorem startState_inv {t0 : Nat} {docHidden : Bool} (h0 : 0 < t0) :
    TimerInv (startState t0 docHidden) t0 :=
  ⟨t0, rfl, h0, le_refl 0, by simp [startState]⟩

/-- C1: For every timer state reachable from `startTimer` at a positive
time `t0` by a monotone sequence of hide/show events ending no later than
`now`, `getElapsedActiveTime` leaves the state unchanged and returns exactly
the wall-clock time since `startTime` minus `pausedTime` minus the current
hidden interval (`rawElapsed`), which is nonnegative; it never throws (it is
a total function); and on any state whose computed value would be negative it
resets the timer (`startTime = now`, `pausedTime = 0`, hidden tracking
cleared) and returns 0. -/
theorem getElapsedActiveTime_reachable_spec (t0 : Nat) (docHidden : Bool)
    (es : List VisEvent) (now : Nat) (h0 : 0 < t0) (hm : monoChk t0 es now = true) :
    (getElapsedActiveTime (visRun (startState t0 docHidden) es) now =
        (visRun (startState t0 docHidden) es,
          rawElapsed (visRun (startState t0 docHidden) es) now) ∧
      0 ≤ rawElapsed (visRun (startState t0 docHidden) es) now) ∧
    (∀ s' : TimerState, ∀ now' : Nat, truthyOptNat s'.startTime = true →
      rawElapsed s' now' < 0 →
      getElapsedActiveTime s' now' =
        ({ startTime := some now', pausedTime := 0,
           isTabHidden := s'.isTabHidden, tabHiddenAt := none }, 0)) := by
  have hinv : TimerInv (visRun (startState t0 docHidden) es) now :=
    timerInv_run (startState_inv h0) hm
  have hst : truthyOptNat (visRun (startState t0 docHidden) es).startTime = true := by
    obtain ⟨t1, hs1, h1, -, -⟩ := hinv
    rw [hs1]
    simpa [truthyOptNat] using Nat.pos_iff_ne_zero.mp h1
  have hnn := rawElapsed_nonneg hinv
  exact ⟨⟨getElapsed_eq_raw hst hnn, hnn⟩,
    fun s' now' hst' hneg' => getElapsed_clamp hst' hneg'⟩

/-- Witness for C1 at a concrete trace: start at 1, hide at 3, show at 5,
query at 9; the returned value is the raw active-time formula (here 6 ms) and
is nonnegative. -/
theorem getElapsedActiveTime_reachable_spec_witness :
    (getElapsedActiveTime
        (visRun (startState 1 false) [VisEvent.hideTab 3, VisEvent.showTab 5]) 9).2 = 6 ∧
      0 ≤ rawElapsed
        (visRun (startState 1 false) [VisEvent.hideTab 3, VisEvent.showTab 5]) 9 := by
  have h := getElapsedActiveTime_reachable_spec 1 false
    [VisEvent.hideTab 3, VisEvent.showTab 5] 9 (by decide) (by decide)
  refine ⟨?_, h.1.2⟩
  rw [h.1.1]
  decide

theorem saveToStorage_recs_key (ts : TimerState) (url : String) (posX posY : Int)
    (st : LocalStore) (hurl : url ≠ "") :
    (saveToStorage ts (some url) posX posY st).recs ("problem_data_" ++ url) =
      some (mergedTimerRec ts (storedRecOrEmpty st ("problem_data_" ++ url))) := by
  unfold saveToStorage
  rw [if_pos (show truthyOptStr (some url) = true by simpa [truthyOptStr] using hurl)]
  simp

theorem saveToStorage_recs_other (ts : TimerState) (url : String) (posX posY : Int)
    (st : LocalStore) (hurl : url ≠ "") (k : String) (hk : k ≠ "problem_data_" ++ url) :
    (saveToStorage ts (some url) posX posY st).recs k = st.recs k := by
  unfold saveToStorage
  rw [if_pos (show truthyOptStr (some url) = true by simpa [truthyOptStr] using hurl)]
  simp [hk]

/-- C8 counterexample: The method literally named `reset()`
(problem-timer.js lines 134-140) performs no storage write: after executing
it at time 100 against a store whose record holds `problemStartTime = 5`, the
persisted record still holds 5, not the new start time 100 — so the claim's
"the new timer state is persisted to the store immediately" fails for
`reset()`. -/
theorem reset_does_not_persist :
    (timerResetEvent 100 false
        { recs := fun k => if k = "problem_data_u"
            then some (fun f => if f = "problemStartTime" then JSVal.num 5 else JSVal.undef)
            else none,
          overlayPos := none }).1.startTime = some 100 ∧
    (((timerResetEvent 100 false
        { recs := fun k => if k = "problem_data_u"
            then some (fun f => if f = "problemStartTime" then JSVal.num 5 else JSVal.undef)
            else none,
          overlayPos := none }).2.recs "problem_data_u").getD
        (fun _ => JSVal.undef)) "problemStartTime" = JSVal.num 5 ∧
    JSVal.num 5 ≠ JSVal.num 100 := by
  refine ⟨rfl, rfl, by decide⟩

/-- C8 amended: After `resetTimer()` completes at a positive time `t`
with a truthy problem URL: `startTime` equals the reset time, `pausedTime` is
0, hidden tracking is cleared, the new timer state is persisted to the store
immediately (the stored record's timer fields equal the new state), and
`getElapsedActiveTime` at the same instant returns 0 leaving the state
unchanged. -/
theorem resetTimer_spec (t : Nat) (docHidden : Bool) (url : String)
    (posX posY : Int) (st : LocalStore) (h0 : 0 < t) (hurl : url ≠ "") :
    (resetTimer t docHidden (some url) posX posY st).1.startTime = some t ∧
    (resetTimer t docHidden (some url) posX posY st).1.pausedTime = 0 ∧
    (resetTimer t docHidden (some url) posX posY st).1.tabHiddenAt = none ∧
    getElapsedActiveTime (resetTimer t docHidden (some url) posX posY st).1 t =
      ((resetTimer t docHidden (some url) posX posY st).1, 0) ∧
    ∃ merged : JSRecord,
      (resetTimer t docHidden (some url) posX posY st).2.recs ("problem_data_" ++ url) =
        some merged ∧
      merged "problemStartTime" = JSVal.num (t : Int) ∧
      merged "pausedTime" = JSVal.num 0 := by
  have hstt : truthyOptNat (some t) = true := by
    simpa [truthyOptNat] using Nat.pos_iff_ne_zero.mp h0
  refine ⟨rfl, rfl, rfl, ?_, ?_⟩
  · have hraw : rawElapsed (resetTimer t docHidden (some url) posX posY st).1 t = 0 := by
      unfold resetTimer rawElapsed
      simp [truthyOptNat]
    have h2 : getElapsedActiveTime (resetTimer t docHidden (some url) posX posY st).1 t =
        ((resetTimer t docHidden (some url) posX posY st).1,
          rawElapsed (resetTimer t docHidden (some url) posX posY st).1 t) :=
      getElapsed_eq_raw hstt (by rw [hraw])
    rw [h2, hraw]
  · refine ⟨mergedTimerRec (timerReset t docHidden)
      (storedRecOrEmpty st ("problem_data_" ++ url)), ?_, rfl, rfl⟩
    show (saveToStorage (timerReset t docHidden) (some url) posX posY st).recs
        ("problem_data_" ++ url) = _
    exact saveToStorage_recs_key (timerReset t docHidden) url posX posY st hurl

/-- Witness for C8 (amended) at `t = 50`, URL `"u"`, empty store. -/
theorem resetTimer_spec_witness :
    getElapsedActiveTime
        (resetTimer 50 false (some "u") 0 0 { recs := fun _ => none, overlayPos := none }).1 50 =
      ((resetTimer 50 false (some "u") 0 0 { recs := fun _ => none, overlayPos := none }).1, 0) :=
  (resetTimer_spec 50 false "u" 0 0 { recs := fun _ => none, overlayPos := none }
    (by decide) (by decide)).2.2.2.1

/-- C9: Every timer persistence write preserves all non-timer fields of
the stored record: for any prior store, `saveToStorage` writes back, under the
problem's key, a record whose `problemStartTime`/`pausedTime` equal the timer
state's values and whose every other field equals the previously stored value
(fields of an absent record read as `undefined`); records under other keys
are untouched. -/
theorem saveToStorage_frame (ts : TimerState) (url : String) (posX posY : Int)
    (st : LocalStore) (hurl : url ≠ "") :
    ∃ merged : JSRecord,
      (saveToStorage ts (some url) posX posY st).recs ("problem_data_" ++ url) = some merged ∧
      merged "problemStartTime" =
        (match ts.startTime with
         | none => JSVal.null
         | some t => JSVal.num (t : Int)) ∧
      merged "pausedTime" = JSVal.num ts.pausedTime ∧
      (∀ f : String, f ≠ "problemStartTime" → f ≠ "pausedTime" →
        merged f = storedRecOrEmpty st ("problem_data_" ++ url) f) ∧
      (∀ k : String, k ≠ "problem_data_" ++ url →
        (saveToStorage ts (some url) posX posY st).recs k = st.recs k) := by
  refine ⟨mergedTimerRec ts (storedRecOrEmpty st ("problem_data_" ++ url)),
    saveToStorage_recs_key ts url posX posY st hurl, rfl, rfl, ?_, ?_⟩
  · intro f hf1 hf2
    unfold mergedTimerRec
    rw [if_neg hf1, if_neg hf2]
  · intro k hk
    exact saveToStorage_recs_other ts url posX posY st hurl k hk

/-- A concrete timer state used in the C9 witness. -/
def tsWitC9 : TimerState := ⟨some 7, 3, false, none⟩

/-- A concrete store for the C9 witness: its record holds a `name` field. -/
def stWitC9 : LocalStore :=
  { recs := fun k =>
      if k = "problem_data_" ++ "u" then
        some (fun f => if f = "name" then JSVal.num 42 else JSVal.undef)
      else none,
    overlayPos := none }

/-- Witness for C9: a concrete store whose record holds `name = 42`; after a
timer write the `name` field is preserved. -/
theorem saveToStorage_frame_witness :
    (((saveToStorage tsWitC9 (some "u") 0 0 stWitC9).recs ("problem_data_" ++ "u")).getD
        (fun _ => JSVal.undef)) "name" = JSVal.num 42 := by
  obtain ⟨m, hm, h1, h2, h3, h4⟩ := saveToStorage_frame tsWitC9 "u" 0 0 stWitC9 (by decide)
  rw [hm]
  simp only [Option.getD_some]
  rw [h3 "name" (by decide) (by decide)]
  rfl

/- ### Attempts (takeuforward.js)

An element of `this.attempts`, created by the CODE_RUN branch of the message
listener (lines 155-166): `{code, language, timestamp, type: 'run',
runNumber, successful: null}`.  `successful = none` models the `null`
(pending) outcome.  The ISO timestamp string is modelled as a `Nat`. -/

structure Attempt where
  code : String
  language : String
  timestamp : Nat
  atype : String
  runNumber : Nat
  successful : Option Bool
deriving Repr, DecidableEq

/- ### GeminiAPI (mistake-analysis utility)

`analyzeMistakes(attempts, problemInfo)` never throws: its `try`/`catch`
converts every network or format failure into `{success:false, error}`.
Network behaviour is an oracle: non-ok HTTP response, ok response without
`candidates[0].content`, or ok response with a raw analysis text. -/

inductive GeminiNet where
  | notOk (status : Nat) (body : String)
  | okMalformed
  | okContent (rawText : String)
deriving Repr, DecidableEq

structure GeminiResult where
  success : Bool
  error : Option String
  analysis : Option String
  tags : List String
deriving Repr, DecidableEq

/-- A line matching the `^TAGS:\s*(.+)$` pattern of `parseAnalysisResponse`:
it starts with `TAGS:` and has a nonempty payload after the whitespace. -/
def isTagsLine (line : String) : Bool :=
  strStartsWith line "TAGS:" && strTrim (strDrop line 5) != ""

/-- `rawAnalysis.replace(/^TAGS:\s*.+$/m, '')`: blank out the first matching
line (a non-global regex replaces only the first match). -/
def replaceFirstTagsLine : List String → List String
  | [] => []
  | l :: ls => if isTagsLine l then "" :: ls else l :: replaceFirstTagsLine ls

/-- `parseAnalysisResponse` (Gemini utility lines 87-98): extract the tag list
from the first `TAGS:` line (split on commas, trim, drop empties) and the
summary (the text with that line removed, trimmed).  Returns (tags, summary). -/
def parseAnalysisResponse (raw : String) : List String × String :=
  (match (strSplitOnChar raw '\n').find? (fun l => isTagsLine l) with
   | some l => ((strSplitOnChar (strDrop l 5) ',').map strTrim).filter (fun t => t ≠ "")
   | none => [],
   strTrim (strJoinWith "\n" (replaceFirstTagsLine (strSplitOnChar raw '\n'))))

/-- `GeminiAPI.analyzeMistakes` (Gemini utility lines 19-84).  `apiKey` is the
instance field; `storedKey` is what the inline `initialize()` retry would load
from `chrome.storage.sync` (`gemini_api_key || null`).  Guard order follows
the source: key check first, then the attempts check, then the network call
whose failures are caught and returned as `{success:false, error}`. -/
def analyzeMistakes (apiKey storedKey : Option String)
    (attempts : Option (List Attempt)) (net : GeminiNet) : GeminiResult :=
  if truthyOptStr (if truthyOptStr apiKey then apiKey else storedKey) then
    if attempts = none ∨ attempts = some [] then
      { success := false, error := some "No attempts to analyze",
        analysis := none, tags := [] }
    else
      match net with
      | GeminiNet.notOk status body =>
        { success := false,
          error := some ("Gemini API responded with " ++ toString status ++ ": " ++ body),
          analysis := none, tags := [] }
      | GeminiNet.okMalformed =>
        { success := false, error := some "Invalid response format from Gemini API",
          analysis := none, tags := [] }
      | GeminiNet.okContent raw =>
        { success := true, error := none,
          analysis := some (parseAnalysisResponse raw).2,
          tags := (parseAnalysisResponse raw).1 }
  else
    { success := false, error := some "Gemini API key not configured",
      analysis := none, tags := [] }

/-- C10 counterexample: With no API key configured anywhere and an
empty attempts list, `analyzeMistakes` returns the key-configuration error,
not `"No attempts to analyze"`: the key guard runs first, refuting the
claim's empty-attempts clause as stated. -/
theorem analyzeMistakes_empty_attempts_key_first :
    (analyzeMistakes none none (some []) (GeminiNet.okContent "x")).error =
      some "Gemini API key not configured" ∧
    (some "Gemini API key not configured" : Option String) ≠
      some "No attempts to analyze" := by
  exact ⟨rfl, by decide⟩

/-- C10 amended: `analyzeMistakes` is total (never throws) and always
returns a result with a Boolean `success` field; every failure carries an
error message.  When a key is available, null/empty attempts produce
`{success:false, error:"No attempts to analyze"}` independently of the
network oracle (no request is performed); when no key is available the
key-configuration error is returned first, also independently of the network;
a non-ok HTTP status and a malformed response body are returned as
`{success:false, error}` rather than raised. -/
theorem analyzeMistakes_total_spec (apiKey storedKey : Option String)
    (attempts : Option (List Attempt)) (net : GeminiNet) :
    ((analyzeMistakes apiKey storedKey attempts net).success = true ∨
      ∃ e, (analyzeMistakes apiKey storedKey attempts net).error = some e) ∧
    (truthyOptStr (if truthyOptStr apiKey then apiKey else storedKey) = false →
      (analyzeMistakes apiKey storedKey attempts net =
        { success := false, error := some "Gemini API key not configured",
          analysis := none, tags := [] } ∧
       ∀ net' : GeminiNet, analyzeMistakes apiKey storedKey attempts net' =
         analyzeMistakes apiKey storedKey attempts net)) ∧
    (truthyOptStr (if truthyOptStr apiKey then apiKey else storedKey) = true →
      (attempts = none ∨ attempts = some []) →
      (analyzeMistakes apiKey storedKey attempts net =
        { success := false, error := some "No attempts to analyze",
          analysis := none, tags := [] } ∧
       ∀ net' : GeminiNet, analyzeMistakes apiKey storedKey attempts net' =
         analyzeMistakes apiKey storedKey attempts net)) ∧
    (truthyOptStr (if truthyOptStr apiKey then apiKey else storedKey) = true →
      ¬(attempts = none ∨ attempts = some []) →
      (∀ status : Nat, ∀ body : String,
        analyzeMistakes apiKey storedKey attempts (GeminiNet.notOk status body) =
          { success := false,
            error := some ("Gemini API responded with " ++ toString status ++ ": " ++ body),
            analysis := none, tags := [] }) ∧
      analyzeMistakes apiKey storedKey attempts GeminiNet.okMalformed =
        { success := false, error := some "Invalid response format from Gemini API",
          analysis := none, tags := [] }) := by
  refine ⟨?_, ?_, ?_, ?_⟩
  · unfold analyzeMistakes
    by_cases hk : truthyOptStr (if truthyOptStr apiKey then apiKey else storedKey) = true
    · rw [if_pos hk]
      by_cases ha : attempts = none ∨ attempts = some []
      · rw [if_pos ha]
        exact Or.inr ⟨"No attempts to analyze", rfl⟩
      · rw [if_neg ha]
        cases net with
        | notOk status body => exact Or.inr ⟨_, rfl⟩
        | okMalformed => exact Or.inr ⟨_, rfl⟩
        | okContent raw => exact Or.inl rfl
    · rw [if_neg hk]
      exact Or.inr ⟨"Gemini API key not configured", rfl⟩
  · intro hk
    have hk' : ¬(truthyOptStr (if truthyOptStr apiKey then apiKey else storedKey) = true) := by
      rw [hk]; simp
    constructor
    · unfold analyzeMistakes
      rw [if_neg hk']
    · intro net'
      unfold analyzeMistakes
      rw [if_neg hk', if_neg hk']
  · intro hk ha
    constructor
    · unfold analyzeMistakes
      rw [if_pos hk, if_pos ha]
    · intro net'
      unfold analyzeMistakes
      rw [if_pos hk, if_pos ha, if_pos hk, if_pos ha]
  · intro hk ha
    refine ⟨fun status body => ?_, ?_⟩
    · unfold analyzeMistakes
      rw [if_pos hk, if_neg ha]
    · unfold analyzeMistakes
      rw [if_pos hk, if_neg ha]

/-- Witness for C10 (amended): with a key, one attempt and an HTTP 500, the
error result is returned rather than thrown. -/
theorem analyzeMistakes_total_spec_witness :
    analyzeMistakes (some "k") none
        (some [⟨"somecode12345", "cpp", 0, "run", 1, none⟩]) (GeminiNet.notOk 500 "boom") =
      { success := false,
        error := some ("Gemini API responded with " ++ toString 500 ++ ": " ++ "boom"),
        analysis := none, tags := [] } := by
  have h := analyzeMistakes_total_spec (some "k") none
    (some [⟨"somecode12345", "cpp", 0, "run", 1, none⟩]) (GeminiNet.notOk 500 "boom")
  exact (h.2.2.2 (by decide) (by decide)).1 500 "boom"

/- ### TakeUforward extractor state (src/content-scripts/takeuforward.js)

The module-level globals (`TRIES`, `PUBLIC_CODE`, `SELECTED_LANGUAGE`,
`PROBLEM_SLUG`, `QUES`, `DESCRIPTION`, `DIFFICULTY`), the
`TakeUforwardExtractor` instance fields, and the slices of
`chrome.storage.local` the script uses (`tuf_code_data` and the
`problem_data_<url>` records). -/

/-- The persisted `solved` object: `{value, date, tries}`. -/
structure Solved where
  value : Bool
  date : Nat
  tries : Nat
deriving Repr, DecidableEq

/-- A persisted problem record.  Previously stored records may lack any field
(hence `Option` everywhere); `storeProblemData` writes all of them.  The JS
object spread `{...existingData}` additionally preserves unknown fields — the
open-world frame story is covered by the `JSRecord` model used for the timer
writes (C9); here the fields the script itself reads and writes are modelled. -/
structure StoredProblem where
  name : Option String
  platform : Option String
  difficulty : Option Nat
  solved : Option Solved
  ignored : Option Bool
  parent_topic : Option (List String)
  problem_link : Option String
  language : Option String
  problemStartTime : Option Int
  pausedTime : Option Int
  aiAnalysis : Option String
  aiTags : Option (List String)
  shouldAnalyzeWithGemini : Option Bool
  runCounter : Option Nat
  incorrectRunCounter : Option Nat
  timestamp : Option Nat
deriving Repr, DecidableEq

/-- The `tuf_code_data` backup record written on CODE_SUBMIT (lines 126-133). -/
structure CodeData where
  language : String
  code : String
  slug : String
  timestamp : Nat
deriving Repr, DecidableEq

/-- The combined in-memory state of the content script, together with the
problem records in `chrome.storage.local` (keyed by the full storage key). -/
structure ExtState where
  tries : Nat
  publicCode : String
  selectedLanguage : String
  problemSlug : String
  ques : String
  description : String
  difficulty : String
  attempts : List Attempt
  runCounter : Nat
  incorrectRunCounter : Nat
  hasAnalyzedMistakes : Bool
  shouldAnalyzeWithGemini : Bool
  aiAnalysis : Option String
  aiTags : List String
  tufCodeData : Option CodeData
  problemRecords : String → Option StoredProblem

/-- State at script load / after a problem-identity change (lines 11-37 and
86-94 reset all of these). -/
def initialExtState : ExtState :=
  { tries := 0, publicCode := "", selectedLanguage := "", problemSlug := "",
    ques := "", description := "", difficulty := "", attempts := [],
    runCounter := 0, incorrectRunCounter := 0, hasAnalyzedMistakes := false,
    shouldAnalyzeWithGemini := false, aiAnalysis := none, aiTags := [],
    tufCodeData := none, problemRecords := fun _ => none }

/-- The `problemInfo` object built by `extractProblemInfo` (lines 297-306). -/
structure ProblemInfo where
  title : String
  description : String
  difficulty : Nat
  url : String
  language : String
  code : String
  slug : String
  topics : List String
deriving Repr, DecidableEq

/-- The environment of one `handleSuccessfulSubmission` run: DOM element
texts, URL-derived values, the ProblemTimer getters, and the outcomes of the
external Gemini / backend / GitHub calls together with the GitHub toggle. -/
structure PipelineEnv where
  now : Nat
  domHeading : Option String
  domParagraph : Option String
  domDifficulty : Option String
  url : String
  urlSlug : String
  urlTopics : List String
  timerVals : Option (Option Int × Int)
  geminiConfigured : Bool
  geminiSuccess : Bool
  geminiAnalysis : Option String
  geminiTags : Option (List String)
  backendSuccess : Bool
  githubPushEnabled : Bool
  githubSuccess : Bool

/- ### Message-listener events (lines 114-214) -/

/-- CODE_SUBMIT branch (lines 117-143): set the three globals with `|| ''`,
persist them to `tuf_code_data` with a timestamp, and increment `TRIES`. -/
def onCodeSubmit (s : ExtState) (language usercode problem_id : Option String)
    (now : Nat) : ExtState :=
  { s with selectedLanguage := language.getD "",
           publicCode := usercode.getD "",
           problemSlug := problem_id.getD "",
           tufCodeData := some ⟨language.getD "", usercode.getD "", problem_id.getD "", now⟩,
           tries := s.tries + 1 }

/-- CODE_RUN branch (lines 146-167): increment `runCounter`; capture the code
(payload `|| PUBLIC_CODE`); if `code && code.length > 10`, push a pending run
attempt numbered with the new counter. -/
def onCodeRun (s : ExtState) (usercode language : Option String) (now : Nat) : ExtState :=
  if jsOrStr (usercode.getD "") s.publicCode ≠ "" ∧
      (jsOrStr (usercode.getD "") s.publicCode).length > 10 then
    { s with runCounter := s.runCounter + 1,
             attempts := s.attempts ++
               [⟨jsOrStr (usercode.getD "") s.publicCode,
                 jsOrStr (language.getD "") s.selectedLanguage,
                 now, "run", s.runCounter + 1, none⟩] }
  else { s with runCounter := s.runCounter + 1 }

/-- `this.attempts.filter(a => a.type === 'run').pop()` (line 175): the most
recent run-typed attempt. -/
def lastRunAttempt (l : List Attempt) : Option Attempt :=
  l.reverse.find? (fun a => a.atype = "run")

def updateLastRunAux : List Attempt → Attempt → List Attempt
  | [], _ => []
  | a :: as, b => if a.atype = "run" then b :: as else a :: updateLastRunAux as b

/-- In-place mutation of the popped attempt object: replace the most recent
run-typed element of the list. -/
def updateLastRun (l : List Attempt) (b : Attempt) : List Attempt :=
  (updateLastRunAux l.reverse b).reverse

/-- `runResult.success === true || runResult.status === 'Accepted'` (line 177). -/
def runRespSuccess (success : Option Bool) (status : Option String) : Bool :=
  success = some true || status = some "Accepted"

/-- `handleThreeIncorrectRuns` (lines 426-431): just latch the two flags. -/
def handleThreeIncorrectRuns (s : ExtState) : ExtState :=
  { s with hasAnalyzedMistakes := true, shouldAnalyzeWithGemini := true }

/-- RUN_RESPONSE branch (lines 170-192): find the most recent run attempt; if
it is still pending, resolve it; on failure increment `incorrectRunCounter`
and, when it reaches 2 with the latch unset, call `handleThreeIncorrectRuns`. -/
def onRunResponse (s : ExtState) (success : Option Bool) (status : Option String) :
    ExtState :=
  match lastRunAttempt s.attempts with
  | none => s
  | some la =>
    if la.successful = none then
      if runRespSuccess success status then
        { s with attempts := updateLastRun s.attempts { la with successful := some true } }
      else
        if 2 ≤ s.incorrectRunCounter + 1 ∧ s.hasAnalyzedMistakes = false then
          handleThreeIncorrectRuns
            { s with attempts := updateLastRun s.attempts { la with successful := some false },
                     incorrectRunCounter := s.incorrectRunCounter + 1 }
        else
          { s with attempts := updateLastRun s.attempts { la with successful := some false },
                   incorrectRunCounter := s.incorrectRunCounter + 1 }
    else s

/-- SUBMISSION_RESPONSE failure branch (lines 203-211): "Count failed
submissions as failed runs too" — increment the same `incorrectRunCounter`,
and latch when it reaches 3 with the latch unset. -/
def onSubmissionFailure (s : ExtState) : ExtState :=
  if 3 ≤ s.incorrectRunCounter + 1 ∧ s.hasAnalyzedMistakes = false then
    handleThreeIncorrectRuns { s with incorrectRunCounter := s.incorrectRunCounter + 1 }
  else { s with incorrectRunCounter := s.incorrectRunCounter + 1 }

/- ### Extraction and persistence (lines 253-424) -/

/-- `fetchQuestionDetails` (lines 253-274): update `QUES`/`DESCRIPTION` only
when both DOM elements are present; `DIFFICULTY` is always re-assigned with
default `"Medium"`. -/
def fetchQuestionDetails (s : ExtState) (env : PipelineEnv) : ExtState :=
  match env.domHeading, env.domParagraph with
  | some h, some p =>
    { s with ques := strTrim h, description := strTrim p,
             difficulty := jsOrStr (strTrim (env.domDifficulty.getD "")) "Medium" }
  | _, _ =>
    { s with difficulty := jsOrStr (strTrim (env.domDifficulty.getD "")) "Medium" }

/-- `normalizeDifficulty` (lines 329-335): `difficulty.toLowerCase()` then
`includes` checks, defaulting to medium. -/
def normalizeDifficulty (difficulty : String) : Nat :=
  if strContains (strToLower difficulty) "easy" then 0
  else if strContains (strToLower difficulty) "medium" then 1
  else if strContains (strToLower difficulty) "hard" then 2
  else 1

/-- The inner part of the storage-restore step: `storedData.tuf_code_data`
exists with a truthy timestamp less than 60 s old, so refresh each global
with `stored || current`. -/
def restoreFromBackup (s : ExtState) : Option CodeData → Nat → ExtState
  | some cd, now =>
    if cd.timestamp ≠ 0 ∧ now - cd.timestamp < 60000 then
      { s with selectedLanguage := jsOrStr cd.language s.selectedLanguage,
               publicCode := jsOrStr cd.code s.publicCode,
               problemSlug := jsOrStr cd.slug s.problemSlug }
    else s
  | none, _ => s

/-- The storage-restore step of `extractProblemInfo` (lines 282-295): when
any of the three globals is falsy, consult the `tuf_code_data` backup. -/
def restoreCodeData (s : ExtState) (now : Nat) : ExtState :=
  if s.publicCode = "" ∨ s.selectedLanguage = "" ∨ s.problemSlug = "" then
    restoreFromBackup s s.tufCodeData now
  else s

/-- The `problemInfo` literal (lines 297-306), built from the post-restore
state and the URL-derived oracle values. -/
def extractedInfo (s : ExtState) (env : PipelineEnv) : ProblemInfo :=
  { title := s.ques, description := s.description,
    difficulty := normalizeDifficulty s.difficulty,
    url := env.url, language := s.selectedLanguage, code := s.publicCode,
    slug := jsOrStr s.problemSlug env.urlSlug, topics := env.urlTopics }

/-- `extractProblemInfo` (lines 276-327): fetch the question details, maybe
restore the code globals from storage, then validate `title` and `code`
(returning `none` on a missing required field).  The returned state records
the global mutations made along the way. -/
def extractProblemInfo (s : ExtState) (env : PipelineEnv) : ExtState × Option ProblemInfo :=
  if (extractedInfo (restoreCodeData (fetchQuestionDetails s env) env.now) env).title = "" then
    (restoreCodeData (fetchQuestionDetails s env) env.now, none)
  else if (extractedInfo (restoreCodeData (fetchQuestionDetails s env) env.now) env).code = "" then
    (restoreCodeData (fetchQuestionDetails s env) env.now, none)
  else
    (restoreCodeData (fetchQuestionDetails s env) env.now,
      some (extractedInfo (restoreCodeData (fetchQuestionDetails s env) env.now) env))

/-- The sticky-solved computation of `storeProblemData` (lines 368-388):
`existingData.solved || {value:false,date:0,tries:0}`; keep it if already
solved; on a fresh solve use `TRIES || 1`; otherwise `TRIES || 0`. -/
def solvedDataOf (previous : Option Solved) (solved : Bool) (tries now : Nat) : Solved :=
  if (previous.getD ⟨false, 0, 0⟩).value then previous.getD ⟨false, 0, 0⟩
  else if solved then ⟨true, now, if tries = 0 then 1 else tries⟩
  else ⟨false, 0, tries⟩

/-- The record written by `storeProblemData` (lines 393-414), given the
previously stored record under the same key.  `||`/`??` defaults follow the
source; `problemInfo.topics` and `this.aiTags` are arrays and hence always
truthy, so their `||` fallbacks never apply. -/
def builtProblemRecord (s : ExtState) (info : ProblemInfo) (solved : Bool)
    (existing : Option StoredProblem) (timerVals : Option (Option Int × Int))
    (now : Nat) : StoredProblem :=
  { name := some info.title,
    platform := some "takeuforward",
    difficulty := some info.difficulty,
    solved := some (solvedDataOf (existing.bind (fun e => e.solved)) solved s.tries now),
    ignored := some ((existing.bind (fun e => e.ignored)).getD false),
    parent_topic := some info.topics,
    problem_link := some info.url,
    language := some (jsOrStr info.language
      (jsOrStr ((existing.bind (fun e => e.language)).getD "") "python")),
    problemStartTime := some (jsOrNum (timerVals.bind (fun t => t.1))
      (jsOrNum (existing.bind (fun e => e.problemStartTime)) (now : Int))),
    pausedTime := some (jsOrNum (timerVals.map (fun t => t.2))
      (jsOrNum (existing.bind (fun e => e.pausedTime)) 0)),
    aiAnalysis := (match s.aiAnalysis with
      | some "" => none
      | x => x),
    aiTags := some s.aiTags,
    shouldAnalyzeWithGemini := some s.shouldAnalyzeWithGemini,
    runCounter := some s.runCounter,
    incorrectRunCounter := some s.incorrectRunCounter,
    timestamp := some now }

/-- `storeProblemData` (lines 360-424): read the existing record for the
problem's key, compute the merged record, and write it back under the same
key.  Only `problemRecords` changes. -/
def storeProblemData (s : ExtState) (info : ProblemInfo) (solved : Bool)
    (timerVals : Option (Option Int × Int)) (now : Nat) : ExtState :=
  { s with problemRecords := fun k =>
      if k = "problem_data_" ++ info.url then
        some (builtProblemRecord s info solved
          (s.problemRecords ("problem_data_" ++ info.url)) timerVals now)
      else s.problemRecords k }

/- ### The successful-submission pipeline (lines 433-591) -/

/-- The duplicated reset block of `handleSuccessfulSubmission` (lines 557-568
and 574-585): clear the transient attempt state. -/
def clearTransient (s : ExtState) : ExtState :=
  { s with tries := 0, publicCode := "", selectedLanguage := "", problemSlug := "",
           attempts := [], runCounter := 0, incorrectRunCounter := 0,
           hasAnalyzedMistakes := false, shouldAnalyzeWithGemini := false,
           aiAnalysis := none, aiTags := [] }

/-- Step 0 (lines 477-507): if flagged and the Gemini key is configured, run
the analysis (outcome from the oracle); on success store analysis/tags in the
instance and re-write the problem record; on failure or missing key continue
unchanged (errors are caught). -/
def pipelineGemini (s : ExtState) (info : ProblemInfo) (env : PipelineEnv) : ExtState :=
  if s.shouldAnalyzeWithGemini then
    if env.geminiConfigured then
      if env.geminiSuccess then
        storeProblemData
          { s with aiAnalysis := env.geminiAnalysis, aiTags := env.geminiTags.getD [] }
          info true env.timerVals env.now
      else s
    else s
  else s

/-- Step 1 (lines 509-540): push to the backend.  Success or failure only
drives toast notifications; no tracked state changes either way. -/
def pipelineBackend (s : ExtState) (_env : PipelineEnv) : ExtState := s

/-- Step 2 (lines 542-586): when the GitHub toggle is enabled, push; on
success remove `tuf_code_data` and clear the transient state; on failure
leave everything as is.  When the toggle is disabled, still clear the
transient state (but `tuf_code_data` is not removed). -/
def pipelineGithub (s : ExtState) (env : PipelineEnv) : ExtState :=
  if env.githubPushEnabled then
    if env.githubSuccess then clearTransient { s with tufCodeData := none }
    else s
  else clearTransient s

/-- `handleSuccessfulSubmission` (lines 433-591): extract; abort when no info
or when the code is missing/shorter than 10 characters; otherwise persist the
solved record, then run the Gemini, backend and GitHub stages in order.
(`extractProblemInfo` is pure here, so calling it repeatedly is harmless.) -/
def handleSuccessfulSubmission (s : ExtState) (env : PipelineEnv) : ExtState :=
  match (extractProblemInfo s env).2 with
  | none => (extractProblemInfo s env).1
  | some info =>
    if info.code = "" ∨ info.code.length < 10 then (extractProblemInfo s env).1
    else
      pipelineGithub
        (pipelineBackend
          (pipelineGemini
            (storeProblemData (extractProblemInfo s env).1 info true env.timerVals env.now)
            info env)
          env)
        env

/- ### Event alphabet and traces -/

inductive TufEvent where
  | codeSubmit (language usercode problem_id : Option String) (now : Nat)
  | codeRun (usercode language : Option String) (now : Nat)
  | runResponse (success : Option Bool) (status : Option String)
  | submission (success : Bool) (env : PipelineEnv)

/-- One step of the message listener (lines 114-214). -/
def tufStep (s : ExtState) (e : TufEvent) : ExtState :=
  match e with
  | .codeSubmit l u p now => onCodeSubmit s l u p now
  | .codeRun u l now => onCodeRun s u l now
  | .runResponse su st => onRunResponse s su st
  | .submission success env =>
    if success then handleSuccessfulSubmission s env else onSubmissionFailure s

def tufRun (s : ExtState) (es : List TufEvent) : ExtState := es.foldl tufStep s

/-- The successive values of `hasAnalyzedMistakes` along an event trace
(including the initial and final states). -/
def latchTrace : ExtState → List TufEvent → List Bool
  | s, [] => [s.hasAnalyzedMistakes]
  | s, e :: es => s.hasAnalyzedMistakes :: latchTrace (tufStep s e) es

/-- Number of `false → true` transitions in a Boolean trace. -/
def countFlips : List Bool → Nat
  | [] => 0
  | [_] => 0
  | a :: b :: rest => (if a = false ∧ b = true then 1 else 0) + countFlips (b :: rest)

/-- Events that are not a successful submission (no pipeline run). -/
def isSuccessSubmit : TufEvent → Bool
  | .submission true _ => true
  | _ => false

/- ### C2: sticky solved status -/

/-- C2: The persisted solved status is sticky: when the stored record for
the problem's key already has `solved.value = true`, any later
`storeProblemData` write (with any `solved` argument) writes back a record
whose `solved` object is the previously stored one, unchanged — it is never
replaced by a not-solved value. -/
theorem storeProblemData_solved_sticky (s : ExtState) (info : ProblemInfo)
    (solved : Bool) (timerVals : Option (Option Int × Int)) (now : Nat)
    (ex : StoredProblem) (sd : Solved)
    (hex : s.problemRecords ("problem_data_" ++ info.url) = some ex)
    (hsd : ex.solved = some sd) (hv : sd.value = true) :
    (storeProblemData s info solved timerVals now).problemRecords
        ("problem_data_" ++ info.url) =
      some (builtProblemRecord s info solved (some ex) timerVals now) ∧
    (builtProblemRecord s info solved (some ex) timerVals now).solved = some sd := by
  constructor
  · unfold storeProblemData
    simp [hex]
  · unfold builtProblemRecord solvedDataOf
    simp [hsd, hv]

/-- The previously stored (already solved) record of the C2 witness. -/
def exRecC2 : StoredProblem :=
  { name := none, platform := none, difficulty := none,
    solved := some ⟨true, 77, 2⟩, ignored := none, parent_topic := none,
    problem_link := none, language := none, problemStartTime := none,
    pausedTime := none, aiAnalysis := none, aiTags := none,
    shouldAnalyzeWithGemini := none, runCounter := none,
    incorrectRunCounter := none, timestamp := none }

/-- The extracted info of the C2 witness. -/
def infoC2 : ProblemInfo := ⟨"t", "d", 1, "u", "cpp", "c", "s", ["General"]⟩

/-- The state of the C2 witness: the store already holds `exRecC2`. -/
def sC2 : ExtState :=
  { initialExtState with problemRecords := fun k =>
      if k = "problem_data_" ++ "u" then some exRecC2 else none }

/-- Witness for C2: a record already solved with 2 tries survives a
`solved := false` re-write untouched. -/
theorem storeProblemData_solved_sticky_witness :
    (builtProblemRecord sC2 infoC2 false (some exRecC2) none 999).solved =
      some ⟨true, 77, 2⟩ :=
  (storeProblemData_solved_sticky sC2 infoC2 false none 999 exRecC2 ⟨true, 77, 2⟩
    (by rfl) rfl rfl).2

/- ### C3: submit failures share the run-failure counter -/

/-- C3 counterexample: A failed submit result does increment the
run-failure counter (`incorrectRunCounter`, the counter the RUN_RESPONSE
branch checks against threshold 2): after one failed run the counter is 1,
and one failed submit raises it to 2; moreover one failed run followed by two
failed submits drives the shared counter to the submit threshold 3 and
latches analysis — the claim's "never increments the run-failure counter"
and its no-latch prediction are both false.  There is no separate
`submitFailCount` in the source. -/
theorem submit_failure_increments_run_counter :
    (tufRun initialExtState
      [TufEvent.codeSubmit (some "cpp") (some "abcdefghijkl") (some "p") 0,
       TufEvent.codeRun none none 1,
       TufEvent.runResponse (some false) none]).incorrectRunCounter = 1 ∧
    (onSubmissionFailure (tufRun initialExtState
      [TufEvent.codeSubmit (some "cpp") (some "abcdefghijkl") (some "p") 0,
       TufEvent.codeRun none none 1,
       TufEvent.runResponse (some false) none])).incorrectRunCounter = 2 ∧
    (onSubmissionFailure (onSubmissionFailure (tufRun initialExtState
      [TufEvent.codeSubmit (some "cpp") (some "abcdefghijkl") (some "p") 0,
       TufEvent.codeRun none none 1,
       TufEvent.runResponse (some false) none]))).hasAnalyzedMistakes = true := by
  refine ⟨rfl, rfl, rfl⟩

/-- C3 amended: A failed submit result increments the same shared
`incorrectRunCounter` that failed runs increment (there is no separate submit
counter); it leaves the attempts list untouched; and it latches analysis
exactly when the shared counter reaches the submit-branch threshold 3 while
the latch is unset. -/
theorem onSubmissionFailure_spec (s : ExtState) :
    (onSubmissionFailure s).incorrectRunCounter = s.incorrectRunCounter + 1 ∧
    (onSubmissionFailure s).attempts = s.attempts ∧
    (onSubmissionFailure s).hasAnalyzedMistakes =
      (s.hasAnalyzedMistakes || decide (3 ≤ s.incorrectRunCounter + 1)) ∧
    (onSubmissionFailure s).shouldAnalyzeWithGemini =
      (s.shouldAnalyzeWithGemini ||
        (decide (3 ≤ s.incorrectRunCounter + 1) && !s.hasAnalyzedMistakes)) := by
  unfold onSubmissionFailure handleThreeIncorrectRuns
  by_cases hc : 3 ≤ s.incorrectRunCounter + 1 ∧ s.hasAnalyzedMistakes = false
  · rw [if_pos hc]
    obtain ⟨h3, hl⟩ := hc
    refine ⟨rfl, rfl, ?_, ?_⟩
    · simp [hl, h3]
    · simp [hl, h3]
  · rw [if_neg hc]
    refine ⟨rfl, rfl, ?_, ?_⟩
    · rcases Bool.eq_false_or_eq_true s.hasAnalyzedMistakes with hl | hl
      · simp [hl]
      · have h3 : ¬ 3 ≤ s.incorrectRunCounter + 1 := fun h => hc ⟨h, hl⟩
        simp [hl]
        omega
    · rcases Bool.eq_false_or_eq_true s.hasAnalyzedMistakes with hl | hl
      · simp [hl]
      · have h3 : ¬ 3 ≤ s.incorrectRunCounter + 1 := fun h => hc ⟨h, hl⟩
        simp [hl]
        intro h2
        exact absurd h2 (by omega)

/- ### C4: the analysis latch -/

/-- A default pipeline environment for concrete traces: extraction succeeds,
Gemini is unconfigured, backend succeeds, GitHub push enabled and successful. -/
def envDft : PipelineEnv :=
  { now := 1000, domHeading := some "Two Sum", domParagraph := some "desc",
    domDifficulty := none, url := "u", urlSlug := "p", urlTopics := ["General"],
    timerVals := none, geminiConfigured := false, geminiSuccess := false,
    geminiAnalysis := none, geminiTags := none, backendSuccess := true,
    githubPushEnabled := true, githubSuccess := true }

theorem countFlips_cons2 (a b : Bool) (rest : List Bool) :
    countFlips (a :: b :: rest) =
      (if a = false ∧ b = true then 1 else 0) + countFlips (b :: rest) := rfl

theorem latchTrace_cons (s : ExtState) (e : TufEvent) (es : List TufEvent) :
    latchTrace s (e :: es) = s.hasAnalyzedMistakes :: latchTrace (tufStep s e) es := rfl

theorem latchTrace_head (s : ExtState) (es : List TufEvent) :
    ∃ rest, latchTrace s es = s.hasAnalyzedMistakes :: rest := by
  cases es with
  | nil => exact ⟨[], rfl⟩
  | cons e es => exact ⟨latchTrace (tufStep s e) es, rfl⟩

/-- No listener event other than a successful submission ever clears
`hasAnalyzedMistakes`: the latch is monotone along such events. -/
theorem latch_mono (s : ExtState) (e : TufEvent) (he : isSuccessSubmit e = false)
    (hs : s.hasAnalyzedMistakes = true) : (tufStep s e).hasAnalyzedMistakes = true := by
  cases e with
  | codeSubmit l u p now => exact hs
  | codeRun u l now =>
    show (onCodeRun s u l now).hasAnalyzedMistakes = true
    unfold onCodeRun
    split
    · exact hs
    · exact hs
  | runResponse su st =>
    show (onRunResponse s su st).hasAnalyzedMistakes = true
    unfold onRunResponse
    split
    · exact hs
    · split
      · split
        · exact hs
        · split
          · rfl
          · exact hs
      · exact hs
  | submission success env =>
    cases success with
    | true => exact Bool.noConfusion he
    | false =>
      show (onSubmissionFailure s).hasAnalyzedMistakes = true
      unfold onSubmissionFailure
      split
      · rfl
      · exact hs

theorem latchTrace_flips_zero (es : List TufEvent) :
    ∀ s : ExtState, (∀ e ∈ es, isSuccessSubmit e = false) →
      s.hasAnalyzedMistakes = true → countFlips (latchTrace s es) = 0 := by
  induction es with
  | nil =>
    intro s _ _
    rfl
  | cons e es ih =>
    intro s hall hs
    have he : isSuccessSubmit e = false := hall e (List.mem_cons_self e es)
    have hs' : (tufStep s e).hasAnalyzedMistakes = true := latch_mono s e he hs
    obtain ⟨rest, hrest⟩ := latchTrace_head (tufStep s e) es
    rw [latchTrace_cons, hrest, countFlips_cons2, ← hrest]
    have hne : ¬(s.hasAnalyzedMistakes = false ∧
        (tufStep s e).hasAnalyzedMistakes = true) := by
      rintro ⟨h1, -⟩
      rw [hs] at h1
      exact Bool.noConfusion h1
    rw [if_neg hne, ih (tufStep s e) (fun e' h => hall e' (List.mem_cons_of_mem e h)) hs']

theorem latchTrace_flips_le_one (es : List TufEvent) :
    ∀ s : ExtState, (∀ e ∈ es, isSuccessSubmit e = false) →
      countFlips (latchTrace s es) ≤ 1 := by
  induction es with
  | nil =>
    intro s _
    exact Nat.zero_le 1
  | cons e es ih =>
    intro s hall
    have he : isSuccessSubmit e = false := hall e (List.mem_cons_self e es)
    have hall' : ∀ e' ∈ es, isSuccessSubmit e' = false :=
      fun e' h => hall e' (List.mem_cons_of_mem e h)
    obtain ⟨rest, hrest⟩ := latchTrace_head (tufStep s e) es
    rw [latchTrace_cons, hrest, countFlips_cons2, ← hrest]
    rcases Bool.eq_false_or_eq_true (tufStep s e).hasAnalyzedMistakes with hs' | hs'
    · rw [latchTrace_flips_zero es (tufStep s e) hall' hs']
      split <;> omega
    · have hne : ¬(s.hasAnalyzedMistakes = false ∧
          (tufStep s e).hasAnalyzedMistakes = true) := by
        rintro ⟨-, h2⟩
        rw [hs'] at h2
        exact Bool.noConfusion h2
      rw [if_neg hne]
      have := ih (tufStep s e) hall'
      omega

/-- The C4 counterexample trace: two run failures latch analysis, a
successful submission (whose GitHub push succeeds) resets the tracker —
clearing the latch — and two further run failures latch it again. -/
def esLatchTwice : List TufEvent :=
  [TufEvent.codeSubmit (some "cpp") (some "abcdefghijkl") (some "p") 0,
   TufEvent.codeRun none none 1,
   TufEvent.runResponse (some false) none,
   TufEvent.codeRun none none 2,
   TufEvent.runResponse (some false) none,
   TufEvent.submission true envDft,
   TufEvent.codeRun (some "abcdefghijkl") (some "cpp") 3,
   TufEvent.runResponse (some false) none,
   TufEvent.codeRun (some "abcdefghijkl") (some "cpp") 4,
   TufEvent.runResponse (some false) none]

/-- C4 counterexample: A sequence of run/submit events with no
problem-identity change in which the latch transitions `false → true`
twice: the pipeline reset that follows a successful submission clears
`hasAnalyzedMistakes`, so two later run failures re-trigger the latching
action. -/
theorem analysisLatch_flips_twice :
    countFlips (latchTrace initialExtState esLatchTwice) = 2 := by rfl

/-- C4 amended: In any sequence of run/submit events that contains no
successful submission (i.e. between problem-identity changes and strictly
before the pipeline's post-success reset), the latch `hasAnalyzedMistakes`
transitions `false → true` at most once, from any starting state: once set,
further failures never clear or re-trigger it. -/
theorem analysisLatch_at_most_once (s : ExtState) (es : List TufEvent)
    (hall : es.all (fun e => !isSuccessSubmit e) = true) :
    countFlips (latchTrace s es) ≤ 1 := by
  refine latchTrace_flips_le_one es s ?_
  intro e he
  have h := List.all_eq_true.mp hall e he
  exact Bool.not_eq_true' .. |>.mp h

/-- Witness for C4 (amended): a concrete no-success trace (one run failure,
two submit failures) flips the latch at most once. -/
theorem analysisLatch_at_most_once_witness :
    countFlips (latchTrace initialExtState
      [TufEvent.codeSubmit (some "cpp") (some "abcdefghijkl") (some "p") 0,
       TufEvent.codeRun none none 1,
       TufEvent.runResponse (some false) none,
       TufEvent.submission false envDft,
       TufEvent.submission false envDft]) ≤ 1 :=
  analysisLatch_at_most_once initialExtState
    [TufEvent.codeSubmit (some "cpp") (some "abcdefghijkl") (some "p") 0,
     TufEvent.codeRun none none 1,
     TufEvent.runResponse (some false) none,
     TufEvent.submission false envDft,
     TufEvent.submission false envDft] (by rfl)

/- ### C7: run results resolve the most recent pending run attempt -/

theorem find_decomp_rev :
    ∀ (r : List Attempt) (la : Attempt),
      r.find? (fun a => a.atype = "run") = some la →
      ∃ r1 r2, r = r1 ++ la :: r2 ∧ la.atype = "run" ∧
        (∀ b ∈ r1, b.atype ≠ "run") ∧
        ∀ b', updateLastRunAux r b' = r1 ++ b' :: r2 := by
  intro r
  induction r with
  | nil =>
    intro la h
    exact absurd h (by simp)
  | cons a as ih =>
    intro la h
    by_cases hpa : a.atype = "run"
    · rw [List.find?_cons_of_pos _ (by simpa using hpa)] at h
      obtain rfl : a = la := Option.some.inj h
      refine ⟨[], as, by simp, hpa, by simp, fun b' => ?_⟩
      unfold updateLastRunAux
      rw [if_pos hpa]
      simp
    · rw [List.find?_cons_of_neg _ (by simpa using hpa)] at h
      obtain ⟨r1, r2, heq, hrun, hnr, hupd⟩ := ih la h
      refine ⟨a :: r1, r2, by rw [heq]; rfl, hrun, ?_, fun b' => ?_⟩
      · intro b hb
        rcases List.mem_cons.mp hb with hb | hb
        · rw [hb]; exact hpa
        · exact hnr b hb
      · unfold updateLastRunAux
        rw [if_neg hpa, hupd b']
        rfl

theorem lastRun_decomp (l : List Attempt) (la : Attempt)
    (h : lastRunAttempt l = some la) :
    ∃ l1 l2, l = l1 ++ la :: l2 ∧ la.atype = "run" ∧
      (∀ b ∈ l2, b.atype ≠ "run") ∧
      ∀ b', updateLastRun l b' = l1 ++ b' :: l2 := by
  obtain ⟨r1, r2, hr, hrun, hnr, hupd⟩ := find_decomp_rev l.reverse la h
  refine ⟨r2.reverse, r1.reverse, ?_, hrun, ?_, fun b' => ?_⟩
  · have hrev := congrArg List.reverse hr
    rw [List.reverse_reverse] at hrev
    rw [hrev]
    simp [List.reverse_append]
  · intro b hb
    exact hnr b (List.mem_reverse.mp hb)
  · unfold updateLastRun
    rw [hupd b']
    simp [List.reverse_append]

/-- C7 counterexample: The run-failure counter does not increment
"exactly when a pending run attempt's outcome transitions to fail": a failed
submission increments `incorrectRunCounter` with no run attempt present at
all (the attempts list is empty and stays empty). -/
theorem runCounter_increment_without_attempt :
    initialExtState.incorrectRunCounter = 0 ∧
    initialExtState.attempts = [] ∧
    (onSubmissionFailure initialExtState).incorrectRunCounter = 1 ∧
    (onSubmissionFailure initialExtState).attempts = [] :=
  ⟨rfl, rfl, rfl, rfl⟩

/-- C7 amended: Within RUN_RESPONSE handling the claim holds: a run
result applies only to the most recent run attempt and only while it is
pending — if there is no run attempt, or the most recent one is already
resolved, the state is unchanged; when it is pending, exactly that element
(the last run-typed one) has its outcome set to the result, every other
attempt is untouched, and `incorrectRunCounter` increments exactly when the
outcome transitions pending→fail — at most once per attempt, since the
attempt is resolved in the same step and resolved attempts are never
modified again.  (The same counter is, however, also incremented by failed
submissions — see the counterexample.) -/
theorem onRunResponse_spec (s : ExtState) (success : Option Bool) (status : Option String) :
    (lastRunAttempt s.attempts = none → onRunResponse s success status = s) ∧
    (∀ la, lastRunAttempt s.attempts = some la → la.successful ≠ none →
      onRunResponse s success status = s) ∧
    (∀ la, lastRunAttempt s.attempts = some la → la.successful = none →
      ∃ l1 l2, s.attempts = l1 ++ la :: l2 ∧ la.atype = "run" ∧
        (∀ b ∈ l2, b.atype ≠ "run") ∧
        (onRunResponse s success status).attempts =
          l1 ++ { la with successful := some (runRespSuccess success status) } :: l2 ∧
        (onRunResponse s success status).incorrectRunCounter =
          (if runRespSuccess success status then s.incorrectRunCounter
           else s.incorrectRunCounter + 1)) := by
  refine ⟨?_, ?_, ?_⟩
  · intro h
    unfold onRunResponse
    rw [h]
  · intro la hla hres
    unfold onRunResponse
    rw [hla]
    simp only [if_neg hres]
  · intro la hla hpend
    obtain ⟨l1, l2, hdec, hrun, hnr, hupd⟩ := lastRun_decomp s.attempts la hla
    refine ⟨l1, l2, hdec, hrun, hnr, ?_, ?_⟩
    · simp only [onRunResponse, hla, if_pos hpend]
      by_cases hrs : runRespSuccess success status = true
      · rw [if_pos hrs, hrs]
        show updateLastRun s.attempts { la with successful := some true } = _
        rw [hupd]
      · rw [if_neg hrs]
        have hrs' : runRespSuccess success status = false := by
          rcases Bool.eq_false_or_eq_true (runRespSuccess success status) with h | h
          · exact absurd h hrs
          · exact h
        rw [hrs']
        split
        · show updateLastRun s.attempts { la with successful := some false } = _
          rw [hupd]
        · show updateLastRun s.attempts { la with successful := some false } = _
          rw [hupd]
    · simp only [onRunResponse, hla, if_pos hpend]
      by_cases hrs : runRespSuccess success status = true
      · rw [if_pos hrs, if_pos hrs]
      · rw [if_neg hrs, if_neg hrs]
        split
        · rfl
        · rfl

/-- A state with exactly one pending run attempt, used in the C7 witness. -/
def sPendingRun : ExtState := tufRun initialExtState
  [TufEvent.codeSubmit (some "cpp") (some "abcdefghijkl") (some "p") 0,
   TufEvent.codeRun none none 1]

/-- Witness for C7 (amended): a failed run result on the single pending
attempt increments the counter from 0 to 1. -/
theorem onRunResponse_spec_witness :
    (onRunResponse sPendingRun (some false) none).incorrectRunCounter = 1 := by
  obtain ⟨l1, l2, -, -, -, -, hc⟩ :=
    (onRunResponse_spec sPendingRun (some false) none).2.2
      ⟨"abcdefghijkl", "cpp", 1, "run", 1, none⟩ (by rfl) rfl
  rw [hc]
  rfl

/- ### C5 and C6: the submission pipeline -/

theorem bool_eq_false_of_ne_true {b : Bool} (h : ¬ b = true) : b = false := by
  cases b with
  | false => rfl
  | true => exact absurd rfl h

theorem extract_fst (s : ExtState) (env : PipelineEnv) :
    (extractProblemInfo s env).1 =
      restoreCodeData (fetchQuestionDetails s env) env.now := by
  unfold extractProblemInfo
  split
  · rfl
  · split
    · rfl
    · rfl

theorem extract_some (s : ExtState) (env : PipelineEnv) (info : ProblemInfo)
    (h : (extractProblemInfo s env).2 = some info) :
    info = extractedInfo (restoreCodeData (fetchQuestionDetails s env) env.now) env := by
  unfold extractProblemInfo at h
  split at h
  · exact absurd h (by simp)
  · split at h
    · exact absurd h (by simp)
    · exact (Option.some.inj h).symm

/-- The code of a successfully extracted `problemInfo` is the post-extraction
value of `PUBLIC_CODE`. -/
theorem extract_code (s : ExtState) (env : PipelineEnv) (info : ProblemInfo)
    (h : (extractProblemInfo s env).2 = some info) :
    (extractProblemInfo s env).1.publicCode = info.code := by
  rw [extract_fst, extract_some s env info h]
  rfl

/-- All attempt-tracking state (records, attempts, counters, latch, tries,
code backup, analysis results) is the same in `b` as in `a`. -/
def sameTracking (a b : ExtState) : Prop :=
  b.problemRecords = a.problemRecords ∧ b.attempts = a.attempts ∧
  b.runCounter = a.runCounter ∧ b.incorrectRunCounter = a.incorrectRunCounter ∧
  b.hasAnalyzedMistakes = a.hasAnalyzedMistakes ∧
  b.shouldAnalyzeWithGemini = a.shouldAnalyzeWithGemini ∧
  b.tries = a.tries ∧ b.tufCodeData = a.tufCodeData ∧
  b.aiAnalysis = a.aiAnalysis ∧ b.aiTags = a.aiTags

theorem sameTracking_refl (a : ExtState) : sameTracking a a :=
  ⟨rfl, rfl, rfl, rfl, rfl, rfl, rfl, rfl, rfl, rfl⟩

theorem sameTracking_trans {a b c : ExtState}
    (h1 : sameTracking a b) (h2 : sameTracking b c) : sameTracking a c :=
  ⟨h2.1.trans h1.1, h2.2.1.trans h1.2.1, h2.2.2.1.trans h1.2.2.1,
   h2.2.2.2.1.trans h1.2.2.2.1, h2.2.2.2.2.1.trans h1.2.2.2.2.1,
   h2.2.2.2.2.2.1.trans h1.2.2.2.2.2.1, h2.2.2.2.2.2.2.1.trans h1.2.2.2.2.2.2.1,
   h2.2.2.2.2.2.2.2.1.trans h1.2.2.2.2.2.2.2.1,
   h2.2.2.2.2.2.2.2.2.1.trans h1.2.2.2.2.2.2.2.2.1,
   h2.2.2.2.2.2.2.2.2.2.trans h1.2.2.2.2.2.2.2.2.2⟩

theorem fetch_sameTracking (s : ExtState) (env : PipelineEnv) :
    sameTracking s (fetchQuestionDetails s env) := by
  unfold fetchQuestionDetails
  cases env.domHeading <;> cases env.domParagraph <;>
    exact ⟨rfl, rfl, rfl, rfl, rfl, rfl, rfl, rfl, rfl, rfl⟩

theorem restore_sameTracking (s : ExtState) (now : Nat) :
    sameTracking s (restoreCodeData s now) := by
  unfold restoreCodeData
  by_cases h1 : s.publicCode = "" ∨ s.selectedLanguage = "" ∨ s.problemSlug = ""
  · rw [if_pos h1]
    cases htc : s.tufCodeData with
    | none => exact sameTracking_refl s
    | some cd =>
      by_cases h2 : cd.timestamp ≠ 0 ∧ now - cd.timestamp < 60000
      · simp only [restoreFromBackup, if_pos h2]
        exact ⟨rfl, rfl, rfl, rfl, rfl, rfl, rfl, rfl, rfl, rfl⟩
      · simp only [restoreFromBackup, if_neg h2]
        exact sameTracking_refl s
  · rw [if_neg h1]
    exact sameTracking_refl s

theorem fetch_publicCode (s : ExtState) (env : PipelineEnv) :
    (fetchQuestionDetails s env).publicCode = s.publicCode := by
  unfold fetchQuestionDetails
  cases env.domHeading <;> cases env.domParagraph <;> rfl

/-- The storage-restore step never clears the cached code: it only keeps or
refreshes it with a truthy stored value. -/
theorem restore_publicCode_nonempty (s : ExtState) (now : Nat)
    (h : s.publicCode ≠ "") : (restoreCodeData s now).publicCode ≠ "" := by
  unfold restoreCodeData
  by_cases h1 : s.publicCode = "" ∨ s.selectedLanguage = "" ∨ s.problemSlug = ""
  · rw [if_pos h1]
    cases htc : s.tufCodeData with
    | none => exact h
    | some cd =>
      by_cases h2 : cd.timestamp ≠ 0 ∧ now - cd.timestamp < 60000
      · simp only [restoreFromBackup, if_pos h2]
        show jsOrStr cd.code s.publicCode ≠ ""
        unfold jsOrStr
        by_cases hc : cd.code = ""
        · rw [if_pos hc]
          exact h
        · rw [if_neg hc]
          exact hc
      · simp only [restoreFromBackup, if_neg h2]
        exact h
  · rw [if_neg h1]
    exact h

/-- The transient reset block has run: everything the two reset blocks of
`handleSuccessfulSubmission` assign is at its cleared value. -/
def transientCleared (s : ExtState) : Prop :=
  s.tries = 0 ∧ s.publicCode = "" ∧ s.selectedLanguage = "" ∧ s.problemSlug = "" ∧
  s.attempts = [] ∧ s.runCounter = 0 ∧ s.incorrectRunCounter = 0 ∧
  s.hasAnalyzedMistakes = false ∧ s.shouldAnalyzeWithGemini = false ∧
  s.aiAnalysis = none ∧ s.aiTags = ([] : List String)

theorem transientCleared_clearTransient (s : ExtState) :
    transientCleared (clearTransient s) :=
  ⟨rfl, rfl, rfl, rfl, rfl, rfl, rfl, rfl, rfl, rfl, rfl⟩

theorem gemini_publicCode (s : ExtState) (info : ProblemInfo) (env : PipelineEnv) :
    (pipelineGemini s info env).publicCode = s.publicCode := by
  unfold pipelineGemini
  split
  · split
    · split
      · rfl
      · rfl
    · rfl
  · rfl

/-- C5: On a successful submission whose extraction succeeds (with code
of sufficient length), the transient attempt state is cleared if and only if
the GitHub push succeeds or the GitHub toggle is disabled; and the pipeline's
resulting state does not depend on the backend-sync outcome at all, so a
backend failure alone never prevents the reset. -/
theorem pipeline_reset_iff_github (s : ExtState) (env : PipelineEnv)
    (info : ProblemInfo) (hext : (extractProblemInfo s env).2 = some info)
    (hcode : 10 ≤ info.code.length) :
    (transientCleared (handleSuccessfulSubmission s env) ↔
      (env.githubPushEnabled = false ∨ env.githubSuccess = true)) ∧
    (∀ b : Bool, handleSuccessfulSubmission s { env with backendSuccess := b } =
      handleSuccessfulSubmission s env) := by
  have hcne : info.code ≠ "" := by
    intro h
    rw [h] at hcode
    exact absurd hcode (by decide)
  have hne : ¬(info.code = "" ∨ info.code.length < 10) := by
    rintro (h | h)
    · exact hcne h
    · omega
  have hmain : handleSuccessfulSubmission s env =
      pipelineGithub (pipelineBackend (pipelineGemini
        (storeProblemData (extractProblemInfo s env).1 info true env.timerVals env.now)
        info env) env) env := by
    simp only [handleSuccessfulSubmission, hext]
    rw [if_neg hne]
  have hpc : (pipelineBackend (pipelineGemini
      (storeProblemData (extractProblemInfo s env).1 info true env.timerVals env.now)
      info env) env).publicCode = info.code := by
    show (pipelineGemini
      (storeProblemData (extractProblemInfo s env).1 info true env.timerVals env.now)
      info env).publicCode = info.code
    rw [gemini_publicCode]
    show (extractProblemInfo s env).1.publicCode = info.code
    exact extract_code s env info hext
  refine ⟨?_, fun b => rfl⟩
  rw [hmain]
  constructor
  · intro hcl
    by_cases hen : env.githubPushEnabled = true
    · by_cases hsu : env.githubSuccess = true
      · exact Or.inr hsu
      · exfalso
        unfold pipelineGithub at hcl
        rw [if_pos hen, if_neg hsu] at hcl
        exact hcne (hpc.symm.trans hcl.2.1)
    · exact Or.inl (bool_eq_false_of_ne_true hen)
  · intro hd
    unfold pipelineGithub
    rcases hd with hd | hd
    · rw [hd]
      rw [if_neg (by decide : ¬(false = true))]
      exact transientCleared_clearTransient _
    · by_cases hen : env.githubPushEnabled = true
      · rw [if_pos hen, if_pos hd]
        exact transientCleared_clearTransient _
      · rw [if_neg hen]
        exact transientCleared_clearTransient _

/-- The post-CODE_SUBMIT state used in the C5 witness. -/
def sSubmitC5 : ExtState := tufRun initialExtState
  [TufEvent.codeSubmit (some "cpp") (some "abcdefghijkl") (some "p") 0]

/-- Witness for C5 at a concrete state and environment: with the GitHub push
succeeding, the transient state ends up cleared. -/
theorem pipeline_reset_iff_github_witness :
    transientCleared (handleSuccessfulSubmission sSubmitC5 envDft) := by
  have h := pipeline_reset_iff_github sSubmitC5 envDft
    ⟨"Two Sum", "desc", 1, "u", "cpp", "abcdefghijkl", "p", ["General"]⟩
    (by rfl) (by decide)
  exact h.1.mpr (Or.inr rfl)

/-- C6 amended: When extraction fails (no title or no code) or the code
is shorter than 10 characters, the pipeline aborts before the persist stage:
the resulting state is exactly the post-extraction state — no problem record
is written and no later stage runs — with the attempts, counters, latch,
tries, analysis results and `tuf_code_data` backup unchanged; the cached
code is never cleared by the abort (though extraction may have refreshed it
from the `tuf_code_data` backup), so a later submission can retry. -/
theorem pipeline_abort_preserves_state (s : ExtState) (env : PipelineEnv)
    (habort : (extractProblemInfo s env).2 = none ∨
      ∃ info, (extractProblemInfo s env).2 = some info ∧ info.code.length < 10) :
    handleSuccessfulSubmission s env = (extractProblemInfo s env).1 ∧
    sameTracking s (handleSuccessfulSubmission s env) ∧
    (s.publicCode ≠ "" → (handleSuccessfulSubmission s env).publicCode ≠ "") := by
  have hres : handleSuccessfulSubmission s env = (extractProblemInfo s env).1 := by
    rcases habort with h | ⟨info, hinfo, hlen⟩
    · simp only [handleSuccessfulSubmission, h]
    · simp only [handleSuccessfulSubmission, hinfo]
      rw [if_pos (Or.inr hlen)]
  refine ⟨hres, ?_, ?_⟩
  · rw [hres, extract_fst]
    exact sameTracking_trans (fetch_sameTracking s env)
      (restore_sameTracking (fetchQuestionDetails s env) env.now)
  · intro hne
    rw [hres, extract_fst]
    exact restore_publicCode_nonempty (fetchQuestionDetails s env) env.now
      ((fetch_publicCode s env).symm ▸ hne)

/-- The state of the C6 abort scenario: the in-memory cache is empty but the
`tuf_code_data` backup survives (e.g. after a page reload). -/
def sAbortC6 : ExtState :=
  { initialExtState with tufCodeData := some ⟨"cpp", "abcdefghijkl", "p", 5⟩ }

/-- The environment of the C6 abort scenario: the DOM heading is missing, so
the extracted title is empty and the pipeline aborts. -/
def envAbortC6 : PipelineEnv := { envDft with domHeading := none }

/-- C6 counterexample: On an aborted pipeline run (missing title) no
record is written, but the cached code is *not* left unchanged: extraction
restores it from the `tuf_code_data` backup, taking `PUBLIC_CODE` from `""`
to the stored code — refuting the claim's "cached code is left unchanged". -/
theorem extraction_abort_restores_cached_code :
    sAbortC6.publicCode = "" ∧
    (handleSuccessfulSubmission sAbortC6 envAbortC6).publicCode = "abcdefghijkl" ∧
    "abcdefghijkl" ≠ "" ∧
    (handleSuccessfulSubmission sAbortC6 envAbortC6).problemRecords
      ("problem_data_" ++ "u") = none ∧
    (handleSuccessfulSubmission sAbortC6 envAbortC6).attempts = [] := by
  exact ⟨rfl, rfl, by decide, rfl, rfl⟩

/-- Witness for C6 (amended) at the concrete abort scenario: the attempt
list, counters and latch are untouched and no record is written. -/
theorem pipeline_abort_preserves_state_witness :
    (handleSuccessfulSubmission sAbortC6 envAbortC6).attempts = sAbortC6.attempts ∧
    (handleSuccessfulSubmission sAbortC6 envAbortC6).problemRecords =
      sAbortC6.problemRecords := by
  have h := pipeline_abort_preserves_state sAbortC6 envAbortC6 (Or.inl (by rfl))
  exact ⟨h.2.1.2.1, h.2.1.1⟩
